import Mathlib

/-!
Shallow embedding of the govee package (src/govee.go) together with the
behaviour of the two external dependencies the package calls into:
`github.com/blang/semver` (`semver.Make`) and the Go standard library
`time` package (`time.Parse` with the `UnixDate` layout and `Time.Format`
with the `RFC3339` layout).  Go's `uint64` values are modelled as `Nat`
with explicit `2 ^ 64` bounds, and the `uint64 → int` conversion used by
the accessors is modelled explicitly.  Failing Go calls are modelled with
`Option`; a run-time panic is modelled as `none`.
-/

namespace Govee

/-! ### Decimal digits (Go `strconv` helpers) -/

/-- The character of a decimal digit `d` (Go prints digit `d` as ASCII `'0' + d`). -/
def digitChar (d : Nat) : Char := Char.ofNat (48 + d)

/-- Model of Go's `isDigit`: ASCII `'0' ≤ c ≤ '9'`. -/
def isDigitChar (c : Char) : Bool := 48 ≤ c.toNat && c.toNat ≤ 57

/-- Numeric value of an ASCII digit character. -/
def digitVal (c : Char) : Nat := c.toNat - 48

/-- Fuel-driven recursion behind `natDigits`; the fuel only serves
structural termination and is irrelevant as soon as it exceeds `n`. -/
def natDigitsAux : Nat → Nat → List Char
  | 0, _ => []
  | f + 1, n =>
    if n < 10 then [digitChar n]
    else natDigitsAux f (n / 10) ++ [digitChar (n % 10)]

/-- Decimal digit characters of `n`, most significant first: the digits
Go's `strconv.FormatUint` produces. -/
def natDigits (n : Nat) : List Char := natDigitsAux (n + 1) n

/-- Go's decimal rendering of an unsigned integer. -/
def natRepr (n : Nat) : String := String.mk (natDigits n)

/-- Value of a list of decimal digit characters, folded the way Go's
`atoi`/`ParseUint` fold digits. -/
def digitsVal (l : List Char) : Nat := l.foldl (fun a c => 10 * a + digitVal c) 0

/-- Model of `strconv.ParseUint(s, 10, 64)`: succeeds on a nonempty
all-digit string whose value fits in 64 bits, fails otherwise. -/
def goParseUint (l : List Char) : Option Nat :=
  if l.isEmpty then none
  else if l.all isDigitChar then
    if digitsVal l < 2 ^ 64 then some (digitsVal l) else none
  else none

/-! ### Go `strings` helpers used by blang/semver -/

/-- Split a list at the first occurrence of `sep`: `some (before, after)`
when `sep` occurs, `none` otherwise (the shape of Go's `strings.IndexRune`
followed by slicing). -/
def breakAt (sep : Char) : List Char → Option (List Char × List Char)
  | [] => none
  | c :: cs =>
    if c = sep then some ([], cs)
    else (breakAt sep cs).map (fun p => (c :: p.1, p.2))

/-- Model of Go's `strings.SplitN(s, sep, n)` for a single-character
separator and `n ≥ 1`: at most `n` parts, the last part keeping the
remaining separators. -/
def goSplitN (sep : Char) : Nat → List Char → List (List Char)
  | 0, _ => []
  | 1, l => [l]
  | n + 2, l =>
    match breakAt sep l with
    | none => [l]
    | some (p, q) => p :: goSplitN sep (n + 1) q

/-- Model of Go's unlimited `strings.Split(s, sep)`: splitting a list of
length `L` on a single character yields at most `L + 1` parts, so a fuel
of `L + 1` never runs out. -/
def goSplit (sep : Char) (l : List Char) : List (List Char) :=
  goSplitN sep (l.length + 1) l

/-! ### blang/semver: character classes and `PRVersion` -/

/-- The digit alphabet of blang/semver (`numbers = "0123456789"`). -/
def numbers : List Char := "0123456789".data

/-- The letter alphabet of blang/semver (`alphas`), which includes `'-'`. -/
def alphas : List Char := "abcdefghijklmnopqrstuvwxyzABCDEFGHIJKLMNOPQRSTUVWXYZ-".data

/-- blang/semver `alphanum = alphas + numbers`. -/
def alphanum : List Char := alphas ++ numbers

/-- Model of blang/semver `containsOnly(s, set)`: every rune of `s` lies in `set`. -/
def containsOnly (l s : List Char) : Bool := l.all s.contains

/-- Model of blang/semver `hasLeadingZeroes(s)`: length above one and
first character `'0'`. -/
def hasLeadingZeroes (l : List Char) : Bool :=
  decide (1 < l.length) && (l.head? == some '0')

/-- Model of blang/semver `PRVersion`: one pre-release identifier, either
numeric or alphanumeric. -/
structure PRVersion where
  versionStr : String
  versionNum : Nat
  isNum : Bool
deriving DecidableEq, Repr

/-- Model of blang/semver `PRVersion.String`. -/
def prvString (p : PRVersion) : String :=
  if p.isNum then natRepr p.versionNum else p.versionStr

/-- Model of blang/semver `NewPRVersion(s)`: numeric identifiers must have
no leading zeroes and fit in 64 bits; otherwise the identifier must be
alphanumeric. -/
def newPRVersion (l : List Char) : Option PRVersion :=
  if l.isEmpty then none
  else if containsOnly l numbers then
    if hasLeadingZeroes l then none
    else
      match goParseUint l with
      | none => none
      | some n => some ⟨"", n, true⟩
  else if containsOnly l alphanum then some ⟨String.mk l, 0, false⟩
  else none

/-- Model of blang/semver `Version`: the parsed semantic version. -/
structure Semver where
  major : Nat
  minor : Nat
  patch : Nat
  pre : List PRVersion
  build : List String
deriving DecidableEq, Repr

/-- Validation of build identifiers in blang/semver `Parse`: each must be
nonempty and alphanumeric. -/
def parseBuildIds (parts : List (List Char)) : Option (List String) :=
  parts.mapM fun p =>
    if p.isEmpty then none
    else if containsOnly p alphanum then some (String.mk p)
    else none

/-- Parsing of the pre-release identifiers in blang/semver `Parse`. -/
def parsePreIds (parts : List (List Char)) : Option (List PRVersion) :=
  parts.mapM newPRVersion

/-- The validation blang/semver `Parse` applies to each of the three
numeric components: only digits, no leading zeroes, then
`strconv.ParseUint`. -/
def parseNumericId (l : List Char) : Option Nat :=
  if containsOnly l numbers then
    if hasLeadingZeroes l then none else goParseUint l
  else none

/-- The splitting blang/semver `Parse` applies to the third part of
`SplitN(s, ".", 3)`: build metadata after the first `'+'` is cut first,
then the pre-release after the first `'-'` of what remains; the result is
`(patch digits, pre-release identifier parts, build identifier parts)`. -/
def splitOffMeta (p2 : List Char) : List Char × List (List Char) × List (List Char) :=
  let b :=
    match breakAt '+' p2 with
    | none => (p2, ([] : List (List Char)))
    | some pq => (pq.1, goSplit '.' pq.2)
  match breakAt '-' b.1 with
  | none => (b.1, [], b.2)
  | some pq => (pq.1, goSplit '.' pq.2, b.2)

/-- Model of blang/semver `Make` (= `Parse`): split into
`major.minor.rest` with `SplitN(s, ".", 3)`, validate major and minor as
numeric without leading zeroes, strip build metadata after `'+'` and the
pre-release after `'-'` from the rest, validate the patch number, and
parse the pre-release and build identifier lists. -/
def semverMake (s : String) : Option Semver :=
  if s.data.isEmpty then none
  else
    match goSplitN '.' 3 s.data with
    | [p0, p1, p2] =>
      match parseNumericId p0 with
      | none => none
      | some major =>
      match parseNumericId p1 with
      | none => none
      | some minor =>
      match parseNumericId (splitOffMeta p2).1 with
      | none => none
      | some patch =>
      match parsePreIds (splitOffMeta p2).2.1 with
      | none => none
      | some pre =>
      match parseBuildIds (splitOffMeta p2).2.2 with
      | none => none
      | some build => some ⟨major, minor, patch, pre, build⟩
    | _ => none


/-! ### Go `time`: parsing with the `UnixDate` layout -/

/-- A parsed Go `time.Time`, reduced to the data the govee record can
observe: the wall-clock fields, the nanosecond part, and the zone offset
in seconds.  Go's zone name is dropped: it never reaches any accessor of
the package. -/
structure DateTime where
  year : Nat
  month : Nat
  day : Nat
  hour : Nat
  minute : Nat
  second : Nat
  nsec : Nat
  offset : Int
deriving DecidableEq, Repr

/-- The zero `time.Time` (January 1 of year 1, midnight, UTC), the
timestamp field of Go's zero `Version` struct. -/
def DateTime.zero : DateTime := ⟨1, 1, 1, 0, 0, 0, 0, 0⟩

/-- Go `isLeap`. -/
def isLeap (y : Nat) : Bool := y % 4 == 0 && (y % 100 != 0 || y % 400 == 0)

/-- Go `daysIn(m, year)`: the number of days of month `m` (1–12). -/
def daysIn (m y : Nat) : Nat :=
  if m = 2 then if isLeap y then 29 else 28
  else if m = 4 ∨ m = 6 ∨ m = 9 ∨ m = 11 then 30
  else 31

/-- Expect a literal character, as Go's layout loop matches separators. -/
def expectChar (c : Char) : List Char → Option (List Char)
  | [] => none
  | x :: xs => if x = c then some xs else none

/-- Model of Go's `getnum(s, fixed)`: one or two decimal digits, exactly
two when `fixed` is true. -/
def getnum (fixed : Bool) : List Char → Option (Nat × List Char)
  | [] => none
  | [c] =>
    if isDigitChar c then
      if fixed then none else some (digitVal c, [])
    else none
  | c1 :: c2 :: rest =>
    if isDigitChar c1 then
      if isDigitChar c2 then some (10 * digitVal c1 + digitVal c2, rest)
      else if fixed then none
      else some (digitVal c1, c2 :: rest)
    else none

/-- Model of the `stdLongYear` case of Go's `Parse`: exactly four decimal
digits. -/
def parseLongYear : List Char → Option (Nat × List Char)
  | a :: b :: c :: d :: rest =>
    if isDigitChar a && isDigitChar b && isDigitChar c && isDigitChar d then
      some (digitsVal [a, b, c, d], rest)
    else none
  | _ => none

/-- Case folding of Go's layout-name `match`: equal bytes, or both bytes
lowercase-folded to the same ASCII letter. -/
def charMatch (c1 c2 : Char) : Bool :=
  c1 == c2 ||
    (c1.toNat ||| 32 == c2.toNat ||| 32 && 97 ≤ c1.toNat ||| 32 && c1.toNat ||| 32 ≤ 122)

/-- Go's `match(s1, s2)` on equal-length strings. -/
def matchChars : List Char → List Char → Bool
  | [], [] => true
  | a :: as, b :: bs => charMatch a b && matchChars as bs
  | _, _ => false

/-- Iteration behind `lookupAbbr`, carrying the index of the current
table entry. -/
def lookupAbbrGo (i : Nat) : List (List Char) → List Char → Option (Nat × List Char)
  | [], _ => none
  | name :: rest, l =>
    if name.length ≤ l.length && matchChars (l.take name.length) name then
      some (i, l.drop name.length)
    else lookupAbbrGo (i + 1) rest l

/-- Model of Go's `lookup(tab, val)`: the first table entry that is a
case-insensitive prefix of `val`, with the rest of `val`. -/
def lookupAbbr (tab : List (List Char)) (l : List Char) : Option (Nat × List Char) :=
  lookupAbbrGo 0 tab l

/-- Go `shortDayNames`. -/
def shortDayNames : List (List Char) :=
  ["Sun".data, "Mon".data, "Tue".data, "Wed".data, "Thu".data, "Fri".data, "Sat".data]

/-- Go `shortMonthNames`. -/
def shortMonthNames : List (List Char) :=
  ["Jan".data, "Feb".data, "Mar".data, "Apr".data, "May".data, "Jun".data,
   "Jul".data, "Aug".data, "Sep".data, "Oct".data, "Nov".data, "Dec".data]

/-- Nanoseconds denoted by the digit run after the decimal point, as Go's
`parseNanoseconds` computes them: at most nine digits are significant,
scaled up to nanosecond resolution. -/
def nsecOfDigits (ds : List Char) : Nat :=
  digitsVal (ds.take 9) * 10 ^ (9 - min 9 ds.length)

/-- Model of the fractional-second special case of Go's `Parse`: directly
after the seconds, an (unsignified) `'.'` or `','` followed by at least
one digit is consumed even though the layout carries no fractional
second. -/
def parseFrac (l : List Char) : Nat × List Char :=
  match l with
  | c :: d :: rest =>
    if (c == '.' || c == ',') && isDigitChar d then
      (nsecOfDigits ((d :: rest).takeWhile isDigitChar),
        (d :: rest).dropWhile isDigitChar)
    else (0, l)
  | _ => (0, l)

/-- Go `isUpper` for ASCII. -/
def isUpperChar (c : Char) : Bool := 65 ≤ c.toNat && c.toNat ≤ 90

/-- The digits consumed by Go's `leadingInt`. -/
def leadingDigits (l : List Char) : List Char := l.takeWhile isDigitChar

/-- Model of Go's `parseSignedOffset`: a sign followed by a digit run
whose value is at most 23; the result is the number of bytes consumed. -/
def parseSignedOffsetLen (l : List Char) : Nat :=
  match l with
  | c :: rest =>
    if c == '+' || c == '-' then
      let ds := leadingDigits rest
      if ds.isEmpty then 0
      else if digitsVal ds > 23 then 0
      else 1 + ds.length
    else 0
  | [] => 0

/-- Model of Go's `parseGMT`: `"GMT"` optionally followed by a signed
hour offset. -/
def parseGMTLen (l : List Char) : Nat :=
  let rest := l.drop 3
  match rest with
  | c :: _ =>
    if c == '-' || c == '+' then
      let n := parseSignedOffsetLen rest
      if n = 0 then 3 else 3 + n
    else 3
  | [] => 3

/-- Model of Go's `parseTimeZone(value)`: the number of bytes of the
timezone abbreviation at the front of `value`, or `none` when it does not
look like a zone. -/
def parseTimeZoneLen (l : List Char) : Option Nat :=
  if l.length < 3 then none
  else if l.take 4 = "ChST".data ∨ l.take 4 = "MeST".data then some 4
  else if l.take 3 = "GMT".data then some (parseGMTLen l)
  else if l.head? = some '+' ∨ l.head? = some '-' then
    let n := parseSignedOffsetLen l
    if n > 0 then some n else none
  else
    match (l.take 6).takeWhile isUpperChar |>.length with
    | 3 => some 3
    | 4 => if l.get? 3 = some 'T' ∨ l.take 4 = "WITA".data then some 4 else none
    | 5 => if l.get? 4 = some 'T' then some 5 else none
    | _ => none

/-- Model of the `stdTZ` case of Go's `Parse`: an exact `"UTC"` prefix or
a `parseTimeZone` abbreviation is consumed; since no abbreviation other
than the local zone's resolves to a real offset (the model takes the
local zone to be UTC), the resulting offset is always zero, so only the
remaining input is returned. -/
def parseTZ (l : List Char) : Option (List Char) :=
  if l.take 3 = "UTC".data then some (l.drop 3)
  else
    match parseTimeZoneLen l with
    | none => none
    | some n => some (l.drop n)

/-- Model of the `stdUnderDay` (`"_2"`) space padding of Go's `Parse`:
one leading space is skipped before the day digits. -/
def underDayPad : List Char → List Char
  | ' ' :: rest => rest
  | l => l

/-- Model of Go `time.Parse(time.UnixDate, s)` with layout
`"Mon Jan _2 15:04:05 MST 2006"`.  The syntactic steps follow the layout
loop; Go's range checks (spread through and after the loop, but without
effect on what is consumed) are gathered in the final guard.  A `none`
stands for any parse error. -/
def parseUnixDate (s : String) : Option DateTime :=
  match lookupAbbr shortDayNames s.data with
  | none => none
  | some wd =>
  match expectChar ' ' wd.2 with
  | none => none
  | some l1 =>
  match lookupAbbr shortMonthNames l1 with
  | none => none
  | some mo =>
  match expectChar ' ' mo.2 with
  | none => none
  | some l2 =>
  match getnum false (underDayPad l2) with
  | none => none
  | some dy =>
  match expectChar ' ' dy.2 with
  | none => none
  | some l3 =>
  match getnum false l3 with
  | none => none
  | some hr =>
  match expectChar ':' hr.2 with
  | none => none
  | some l4 =>
  match getnum true l4 with
  | none => none
  | some mi =>
  match expectChar ':' mi.2 with
  | none => none
  | some l5 =>
  match getnum true l5 with
  | none => none
  | some se =>
  match expectChar ' ' (parseFrac se.2).2 with
  | none => none
  | some l6 =>
  match parseTZ l6 with
  | none => none
  | some l7 =>
  match expectChar ' ' l7 with
  | none => none
  | some l8 =>
  match parseLongYear l8 with
  | none => none
  | some yr =>
  if yr.2.isEmpty then
    if 1 ≤ mo.1 + 1 ∧ mo.1 + 1 ≤ 12 ∧ 1 ≤ dy.1 ∧ dy.1 ≤ daysIn (mo.1 + 1) yr.1 ∧
        hr.1 < 24 ∧ mi.1 < 60 ∧ se.1 < 60 then
      some ⟨yr.1, mo.1 + 1, dy.1, hr.1, mi.1, se.1, (parseFrac se.2).1, 0⟩
    else none
  else none


/-! ### Go `time`: formatting and parsing with the `RFC3339` layout -/

/-- Go's `appendInt(b, n, w)` for unsigned values: the decimal digits of
`n`, left-padded with `'0'` to width `w`. -/
def padDigits (w n : Nat) : List Char :=
  List.replicate (w - (natDigits n).length) '0' ++ natDigits n

/-- The `Z07:00` part of Go's `RFC3339` formatting: `'Z'` for a zero
offset, otherwise a signed `hh:mm` rendering of the offset. -/
def offsetChars (o : Int) : List Char :=
  if o = 0 then ['Z']
  else (if o < 0 then '-' else '+') ::
    (padDigits 2 (o.natAbs / 3600) ++ ':' :: padDigits 2 (o.natAbs % 3600 / 60))

/-- Model of Go `Time.Format(time.RFC3339)` (layout
`"2006-01-02T15:04:05Z07:00"`) on the observable timestamp data: the
nanosecond field is not rendered by this layout. -/
def formatRFC3339 (t : DateTime) : String :=
  String.mk (padDigits 4 t.year ++ '-' :: padDigits 2 t.month ++ '-' :: padDigits 2 t.day ++
    'T' :: padDigits 2 t.hour ++ ':' :: padDigits 2 t.minute ++ ':' :: padDigits 2 t.second ++
    offsetChars t.offset)

/-- Model of the `stdISO8601ColonTZ` (`Z07:00`) case of Go's `Parse`:
either a literal `'Z'` (offset zero) or a signed `hh:mm` offset. -/
def parseISO8601TZ : List Char → Option (Int × List Char)
  | 'Z' :: rest => some (0, rest)
  | s :: h1 :: h2 :: c :: m1 :: m2 :: rest =>
    if (s = '+' ∨ s = '-') ∧ c = ':' ∧ isDigitChar h1 ∧ isDigitChar h2 ∧
        isDigitChar m1 ∧ isDigitChar m2 then
      let off : Int := (digitsVal [h1, h2] * 60 + digitsVal [m1, m2]) * 60
      some (if s = '-' then -off else off, rest)
    else none
  | _ => none

/-- Model of Go `time.Parse(time.RFC3339, s)`.  As in `parseUnixDate`,
the syntactic steps follow the layout loop and the range checks are
gathered in the final guard; the fractional-second special case after the
seconds also applies to this layout. -/
def parseRFC3339 (s : String) : Option DateTime :=
  match parseLongYear s.data with
  | none => none
  | some yr =>
  match expectChar '-' yr.2 with
  | none => none
  | some l1 =>
  match getnum true l1 with
  | none => none
  | some mo =>
  match expectChar '-' mo.2 with
  | none => none
  | some l2 =>
  match getnum true l2 with
  | none => none
  | some dy =>
  match expectChar 'T' dy.2 with
  | none => none
  | some l3 =>
  match getnum false l3 with
  | none => none
  | some hr =>
  match expectChar ':' hr.2 with
  | none => none
  | some l4 =>
  match getnum true l4 with
  | none => none
  | some mi =>
  match expectChar ':' mi.2 with
  | none => none
  | some l5 =>
  match getnum true l5 with
  | none => none
  | some se =>
  match parseISO8601TZ (parseFrac se.2).2 with
  | none => none
  | some tz =>
  if tz.2.isEmpty then
    if 1 ≤ mo.1 ∧ mo.1 ≤ 12 ∧ 1 ≤ dy.1 ∧ dy.1 ≤ daysIn mo.1 yr.1 ∧
        hr.1 < 24 ∧ mi.1 < 60 ∧ se.1 < 60 then
      some ⟨yr.1, mo.1, dy.1, hr.1, mi.1, se.1, (parseFrac se.2).1, tz.1⟩
    else none
  else none


/-! ### The govee package itself (src/govee.go) -/

/-- The two construction failure kinds named by the specification.  The
Go code propagates the underlying parser error; the kind records which of
the two parses produced it. -/
inductive GoveeError where
  | InvalidSemver
  | InvalidTimestamp
deriving DecidableEq, Repr

/-- Model of the `Version` struct of src/govee.go. -/
structure Version where
  semver : Semver
  githash : String
  gitbranch : String
  gituser : String
  os : String
  arch : String
  compiler : String
  release : String
  timestamp : DateTime
  warnings : List String
  err : Option GoveeError
deriving DecidableEq, Repr

/-- The zero `Version{}` value that `NewVersion` returns on failure. -/
def Version.empty : Version :=
  ⟨⟨0, 0, 0, [], []⟩, "", "", "", "", "", "", "", DateTime.zero, [], none⟩

/-- Model of the `VersionConfig` struct of src/govee.go. -/
structure VersionConfig where
  VersionString : String
  GitHash : String
  GitBranch : String
  GitUser : String
  OS : String
  Arch : String
  Compiler : String
  Release : String
  TStamp : String
deriving DecidableEq, Repr

/-- Go `fmt` rendering of a `[]semver.PRVersion` slice under `%+v`: each
element through its `String` method, space-separated, enclosed in
brackets. -/
def fmtPreSlice (pre : List PRVersion) : String :=
  "[" ++ String.intercalate " " (pre.map prvString) ++ "]"

/-- The pre-release warning text built at src/govee.go lines 61–64. -/
def preReleaseWarning (pre : List PRVersion) : String :=
  "This version is tagged as a pre-release \"" ++ fmtPreSlice pre ++
    "\". Please don't use in production."

/-- The release warning text built at src/govee.go lines 69–72. -/
def releaseWarning (r : String) : String :=
  "This version is tagged as release \"" ++ r ++ "\". Please don't use in production."

/-- Model of `NewVersion` (src/govee.go lines 39–76).  The Go function
returns the pair `(Version, error)`; an error from `semver.Make` or
`time.Parse` makes it return the zero `Version{}` together with that
error. -/
def NewVersion (c : VersionConfig) : Version × Option GoveeError :=
  match semverMake c.VersionString with
  | none => (Version.empty, some GoveeError.InvalidSemver)
  | some sv =>
    match parseUnixDate c.TStamp with
    | none => (Version.empty, some GoveeError.InvalidTimestamp)
    | some ts =>
      let warnings1 : List String :=
        if 0 < sv.pre.length then [preReleaseWarning sv.pre] else []
      let warnings2 : List String :=
        if c.Release ≠ "production" ∧ c.Release ≠ "prod" then [releaseWarning c.Release] else []
      ({ semver := sv, githash := c.GitHash, gitbranch := c.GitBranch, gituser := c.GitUser,
         os := c.OS, arch := c.Arch, compiler := c.Compiler, release := c.Release,
         timestamp := ts, warnings := warnings1 ++ warnings2, err := none }, none)

/-- Model of the Go conversion `int(x)` applied to a `uint64` value below
`2 ^ 64`, on a 64-bit platform: values from `2 ^ 63` on wrap to negative
numbers. -/
def intOfUInt64 (n : Nat) : Int :=
  if n < 2 ^ 63 then (n : Int) else (n : Int) - 2 ^ 64

/-- Accessor `Major` (src/govee.go lines 88–91): `int(v.semver.Major)`. -/
def Version.Major (v : Version) : Int := intOfUInt64 v.semver.major

/-- Accessor `Minor` (src/govee.go lines 93–96): `int(v.semver.Minor)`. -/
def Version.Minor (v : Version) : Int := intOfUInt64 v.semver.minor

/-- Accessor `Patch` (src/govee.go lines 98–101): `int(v.semver.Patch)`. -/
def Version.Patch (v : Version) : Int := intOfUInt64 v.semver.patch

/-- Accessor `Pre` (src/govee.go lines 103–106):
`fmt.Sprintf("%v", v.semver.Pre[0])`.  Indexing `Pre[0]` on an empty
slice panics at run time; the panic is modelled as `none`. -/
def Version.Pre (v : Version) : Option String :=
  match v.semver.pre with
  | [] => none
  | p :: _ => some (prvString p)

/-- Accessor `Warnings` (src/govee.go lines 108–111). -/
def Version.Warnings (v : Version) : List String := v.warnings

/-- Accessor `Err` (src/govee.go lines 113–116). -/
def Version.Err (v : Version) : Option GoveeError := v.err

/-- Accessor `GitHash` (src/govee.go lines 118–121). -/
def Version.GitHash (v : Version) : String := v.githash

/-- Accessor `GitBranch` (src/govee.go lines 123–126). -/
def Version.GitBranch (v : Version) : String := v.gitbranch

/-- Accessor `GitUser` (src/govee.go lines 128–131). -/
def Version.GitUser (v : Version) : String := v.gituser

/-- Accessor `OS` (src/govee.go lines 133–136). -/
def Version.OS (v : Version) : String := v.os

/-- Accessor `Arch` (src/govee.go lines 138–141). -/
def Version.Arch (v : Version) : String := v.arch

/-- Accessor `Release` (src/govee.go lines 143–146). -/
def Version.Release (v : Version) : String := v.release

/-- Accessor `TStamp` (src/govee.go lines 148–151):
`v.timestamp.Format(time.RFC3339)`. -/
def Version.TStamp (v : Version) : String := formatRFC3339 v.timestamp

/-- Accessor `Compiler` (src/govee.go lines 153–156). -/
def Version.Compiler (v : Version) : String := v.compiler

/-- The configuration of the package's own test `TestNewVersion`
(src test file), with release tag `"prod"`. -/
def cfgProd : VersionConfig :=
  ⟨"1.2.3", "1234567890abcdef", "testing", "Jane Doe", "linux", "amd64", "go1.11.1",
    "prod", "Thu Feb 14 15:04:05 SAST 2019"⟩


/-- The configuration of the package's test `TestVersionWarnings`:
pre-release version string and a non-production release tag. -/
def cfgPre : VersionConfig :=
  ⟨"1.2.3-2-ga1b2c3d", "1234567890abcdef", "testing", "Jane Doe", "linux", "amd64", "go1.11.1",
    "test", "Thu Feb 14 15:04:05 SAST 2019"⟩

/-- A configuration whose version string carries two pre-release
identifiers. -/
def cfgMulti : VersionConfig :=
  ⟨"1.2.3-alpha.1", "1234567890abcdef", "testing", "Jane Doe", "linux", "amd64", "go1.11.1",
    "test", "Thu Feb 14 15:04:05 SAST 2019"⟩

/-- A configuration whose major version number lies above `2 ^ 63 - 1`. -/
def cfgBig : VersionConfig :=
  ⟨"9223372036854775808.0.0", "1234567890abcdef", "testing", "Jane Doe", "linux", "amd64",
    "go1.11.1", "prod", "Thu Feb 14 15:04:05 SAST 2019"⟩

/-- A configuration whose major, minor and patch numbers all lie above
`2 ^ 63 - 1`. -/
def cfgBig3 : VersionConfig :=
  ⟨"9223372036854775808.9223372036854775809.9223372036854775810", "1234567890abcdef",
    "testing", "Jane Doe", "linux", "amd64", "go1.11.1", "prod",
    "Thu Feb 14 15:04:05 SAST 2019"⟩

/-- A configuration whose timestamp carries a fractional second. -/
def cfgFrac : VersionConfig :=
  ⟨"1.2.3", "1234567890abcdef", "testing", "Jane Doe", "linux", "amd64", "go1.11.1",
    "prod", "Thu Feb 14 15:04:05.5 SAST 2019"⟩

/-- A configuration with a malformed version string. -/
def cfgBadVer : VersionConfig :=
  ⟨"not-a-version", "1234567890abcdef", "testing", "Jane Doe", "linux", "amd64", "go1.11.1",
    "prod", "Thu Feb 14 15:04:05 SAST 2019"⟩

/-- A configuration with a malformed (empty) timestamp string. -/
def cfgBadTime : VersionConfig :=
  ⟨"1.2.3", "1234567890abcdef", "testing", "Jane Doe", "linux", "amd64", "go1.11.1",
    "prod", ""⟩

/-- The canonical decimal rendering of a three-component version
`"X.Y.Z"`. -/
def canonicalVersionString (x y z : Nat) : String :=
  natRepr x ++ "." ++ natRepr y ++ "." ++ natRepr z

/-- Modelled from the spec: the claimed bracket-enclosed,
**comma**-separated rendering of the pre-release identifier sequence
inside the pre-release warning ("comma-separated for multiple"). -/
def specCommaPreWarning (pre : List PRVersion) : String :=
  "This version is tagged as a pre-release \"[" ++
    String.intercalate "," (pre.map prvString) ++ "]\". Please don't use in production."

/-! ### Helper lemmas about the embedded functions -/

theorem natDigitsAux_irrel (f1 : Nat) : ∀ f2 n, n < f1 → n < f2 →
    natDigitsAux f1 n = natDigitsAux f2 n := by
  induction f1 with
  | zero => intro f2 n h1; omega
  | succ f ih =>
    intro f2 n h1 h2
    cases f2 with
    | zero => omega
    | succ f2 =>
      simp only [natDigitsAux]
      by_cases h10 : n < 10
      · simp [h10]
      · simp only [if_neg h10]
        have hd : n / 10 < n := Nat.div_lt_self (by omega) (by omega)
        rw [ih f2 (n / 10) (by omega) (by omega)]

/-- The recursive unfolding of `natDigits`. -/
theorem natDigits_unfold (n : Nat) :
    natDigits n = if n < 10 then [digitChar n]
      else natDigits (n / 10) ++ [digitChar (n % 10)] := by
  show natDigitsAux (n + 1) n = _
  rw [natDigitsAux]
  by_cases h10 : n < 10
  · simp [h10]
  · simp only [if_neg h10]
    have hd : n / 10 < n := Nat.div_lt_self (by omega) (by omega)
    rw [natDigitsAux_irrel n (n / 10 + 1) (n / 10) (by omega) (by omega)]
    rfl

theorem goParseUint_lt {l : List Char} {n : Nat} (h : goParseUint l = some n) : n < 2 ^ 64 := by
  unfold goParseUint at h
  split at h
  · exact absurd h (by simp)
  · split at h
    · split at h
      · cases h
        assumption
      · exact absurd h (by simp)
    · exact absurd h (by simp)

theorem parseNumericId_lt {l : List Char} {n : Nat} (h : parseNumericId l = some n) :
    n < 2 ^ 64 := by
  unfold parseNumericId at h
  split at h
  · split at h
    · exact absurd h (by simp)
    · exact goParseUint_lt h
  · exact absurd h (by simp)

/-- Inversion of a successful `semverMake`: the parse went through the
three-part split and the component parses, and every numeric component
fits in 64 bits. -/
theorem semverMake_inv {s : String} {sv : Semver} (h : semverMake s = some sv) :
    ∃ p0 p1 p2 pre build,
      goSplitN '.' 3 s.data = [p0, p1, p2] ∧
      parseNumericId p0 = some sv.major ∧
      parseNumericId p1 = some sv.minor ∧
      parseNumericId (splitOffMeta p2).1 = some sv.patch ∧
      parsePreIds (splitOffMeta p2).2.1 = some pre ∧
      parseBuildIds (splitOffMeta p2).2.2 = some build ∧
      sv.pre = pre ∧ sv.build = build := by
  unfold semverMake at h
  rcases hemp : s.data.isEmpty with _ | _ <;> rw [hemp] at h
  case _ =>
    simp only [Bool.false_eq_true, if_false] at h
    rcases hsp : goSplitN '.' 3 s.data with _ | ⟨p0, _ | ⟨p1, _ | ⟨p2, _ | ⟨q3, rest⟩⟩⟩⟩ <;>
        simp only [hsp] at h <;> try exact Option.noConfusion h
    rcases h0 : parseNumericId p0 with _ | major <;> simp only [h0] at h <;>
      try exact Option.noConfusion h
    rcases h1 : parseNumericId p1 with _ | minor <;> simp only [h1] at h <;>
      try exact Option.noConfusion h
    rcases h2 : parseNumericId (splitOffMeta p2).1 with _ | patch <;> simp only [h2] at h <;>
      try exact Option.noConfusion h
    rcases h3 : parsePreIds (splitOffMeta p2).2.1 with _ | pre <;> simp only [h3] at h <;>
      try exact Option.noConfusion h
    rcases h4 : parseBuildIds (splitOffMeta p2).2.2 with _ | build <;> simp only [h4] at h <;>
      try exact Option.noConfusion h
    injection h with h
    subst h
    exact ⟨p0, p1, p2, pre, build, rfl, h0, h1, h2, h3, h4, rfl, rfl⟩
  case _ => exact Option.noConfusion h

/-- The three numeric components of a successful `semverMake` fit in 64
bits. -/
theorem semverMake_components_lt {s : String} {sv : Semver} (h : semverMake s = some sv) :
    sv.major < 2 ^ 64 ∧ sv.minor < 2 ^ 64 ∧ sv.patch < 2 ^ 64 := by
  obtain ⟨p0, p1, p2, pre, build, -, h0, h1, h2, -, -, -, -⟩ := semverMake_inv h
  exact ⟨parseNumericId_lt h0, parseNumericId_lt h1, parseNumericId_lt h2⟩

/-- Inversion of a successful `NewVersion`: the record is built from the
two successful parses, with the warning list as appended by the code. -/
theorem NewVersion_ok {c : VersionConfig} {v : Version} (h : NewVersion c = (v, none)) :
    ∃ sv ts, semverMake c.VersionString = some sv ∧ parseUnixDate c.TStamp = some ts ∧
      v = { semver := sv, githash := c.GitHash, gitbranch := c.GitBranch, gituser := c.GitUser,
            os := c.OS, arch := c.Arch, compiler := c.Compiler, release := c.Release,
            timestamp := ts,
            warnings :=
              (if 0 < sv.pre.length then [preReleaseWarning sv.pre] else []) ++
                (if c.Release ≠ "production" ∧ c.Release ≠ "prod" then [releaseWarning c.Release]
                  else []),
            err := none } := by
  unfold NewVersion at h
  split at h
  · exact absurd (congrArg Prod.snd h) (by simp)
  · case _ sv hsv =>
    split at h
    · exact absurd (congrArg Prod.snd h) (by simp)
    · case _ ts hts =>
      refine ⟨sv, ts, hsv, hts, ?_⟩
      have := congrArg Prod.fst h
      simp only at this
      exact this.symm

/-! ### C1: the `Pre` accessor on a record with an empty pre-release -/

/-- Claim C1: the code evaluated at the failing input.  Construction from
the valid config `cfgProd` (version `"1.2.3"`) succeeds with an empty
pre-release sequence, and `Pre()` then evaluates `v.semver.Pre[0]` on the
empty slice: a run-time panic (modelled as `none`), not an empty string
or sentinel. -/
theorem pre_accessor_panics_on_empty_pre :
    (NewVersion cfgProd).2 = none ∧ (NewVersion cfgProd).1.semver.pre = [] ∧
      (NewVersion cfgProd).1.Pre = none := by decide

/-! ### C2: failure characterization of `NewVersion` -/

/-- Claim C2: `NewVersion` fails exactly when the version string is not a
valid semantic version (kind `InvalidSemver`) or the timestamp string
does not match the Unix date format (kind `InvalidTimestamp`); on failure
the returned record is the zero `Version{}`, carrying none of the config
fields. -/
theorem newVersion_failure_characterization (c : VersionConfig) :
    ((NewVersion c).2 = some GoveeError.InvalidSemver ↔ semverMake c.VersionString = none) ∧
    ((NewVersion c).2 = some GoveeError.InvalidTimestamp ↔
      semverMake c.VersionString ≠ none ∧ parseUnixDate c.TStamp = none) ∧
    (((NewVersion c).2).isSome ↔
      (semverMake c.VersionString = none ∨ parseUnixDate c.TStamp = none)) ∧
    (((NewVersion c).2).isSome → (NewVersion c).1 = Version.empty) := by
  rcases hsv : semverMake c.VersionString with _ | sv
  · simp [NewVersion, hsv]
  · rcases hts : parseUnixDate c.TStamp with _ | ts
    · simp [NewVersion, hsv, hts]
    · simp [NewVersion, hsv, hts]

/-- Witness for C2 at concrete inputs: a malformed version string yields
`InvalidSemver` and the zero record; a malformed timestamp yields
`InvalidTimestamp`. -/
theorem newVersion_failure_characterization_witness :
    (NewVersion cfgBadVer).2 = some GoveeError.InvalidSemver ∧
      (NewVersion cfgBadVer).1 = Version.empty ∧
      (NewVersion cfgBadTime).2 = some GoveeError.InvalidTimestamp := by
  refine ⟨?_, ?_, ?_⟩
  · exact (newVersion_failure_characterization cfgBadVer).1.mpr (by decide)
  · exact (newVersion_failure_characterization cfgBadVer).2.2.2 (by decide)
  · exact (newVersion_failure_characterization cfgBadTime).2.1.mpr (by decide)

theorem string_data_append (a b : String) : (a ++ b).data = a.data ++ b.data := rfl

/-- The two warning texts can never coincide: they differ at character
index 26 (`'a'` of `"a pre-release"` against `'r'` of `"release"`). -/
theorem preReleaseWarning_ne_releaseWarning (pre : List PRVersion) (r : String) :
    preReleaseWarning pre ≠ releaseWarning r := by
  have e1 : ∀ l2 : List Char,
      ("This version is tagged as a pre-release \"".data ++ l2)[26]? = some 'a' := fun l2 => by
    rw [List.getElem?_append_left (by decide)]
    decide
  have e2 : ∀ l2 : List Char,
      ("This version is tagged as release \"".data ++ l2)[26]? = some 'r' := fun l2 => by
    rw [List.getElem?_append_left (by decide)]
    decide
  intro h
  have hd := congrArg String.data h
  rw [preReleaseWarning, releaseWarning, string_data_append, string_data_append,
    string_data_append, string_data_append, List.append_assoc, List.append_assoc] at hd
  have h26 := congrArg (fun l => l[26]?) hd
  simp only [e1, e2] at h26
  exact absurd h26 (by decide)

/-! ### C3: warning count and order -/

/-- Claim C3: for a successfully constructed record the warning sequence
is exactly the pre-release warning (when the pre-release sequence is
nonempty) followed by the release warning (when the release tag is
neither `"production"` nor `"prod"`); its length is the number of
triggered checks, and the pre-release warning, when present, is the first
element. -/
theorem warnings_count_and_order (c : VersionConfig) (v : Version)
    (h : NewVersion c = (v, none)) :
    v.Warnings =
      (if v.semver.pre = [] then [] else [preReleaseWarning v.semver.pre]) ++
        (if c.Release = "production" ∨ c.Release = "prod" then []
          else [releaseWarning c.Release]) ∧
    v.Warnings.length =
      (if v.semver.pre = [] then 0 else 1) +
        (if c.Release = "production" ∨ c.Release = "prod" then 0 else 1) ∧
    (v.semver.pre ≠ [] → v.Warnings.head? = some (preReleaseWarning v.semver.pre)) := by
  obtain ⟨sv, ts, hsv, hts, rfl⟩ := NewVersion_ok h
  have e1 : (if 0 < sv.pre.length then [preReleaseWarning sv.pre] else ([] : List String)) =
      (if sv.pre = [] then [] else [preReleaseWarning sv.pre]) := by
    rcases sv.pre with _ | ⟨a, as⟩ <;> simp
  have e2 : (if c.Release ≠ "production" ∧ c.Release ≠ "prod"
        then [releaseWarning c.Release] else ([] : List String)) =
      (if c.Release = "production" ∨ c.Release = "prod" then []
        else [releaseWarning c.Release]) := by
    by_cases hr : c.Release = "production" ∨ c.Release = "prod"
    · rcases hr with hr | hr <;> simp [hr]
    · push_neg at hr
      simp [hr, hr.1, hr.2]
  refine ⟨?_, ?_, ?_⟩
  · simp only [Version.Warnings, e1, e2]
  · simp only [Version.Warnings, e1, e2, List.length_append]
    by_cases hp : sv.pre = [] <;>
      by_cases hr : c.Release = "production" ∨ c.Release = "prod" <;> simp [hp, hr]
  · intro hp
    simp only [Version.Warnings, e1, e2, if_neg hp]
    simp

/-- Witness for C3 at the configuration of the package's own warnings
test: two warnings, the pre-release one first. -/
theorem warnings_count_and_order_witness :
    (NewVersion cfgPre).1.Warnings.length = 2 ∧
      (NewVersion cfgPre).1.Warnings.head? =
        some (preReleaseWarning (NewVersion cfgPre).1.semver.pre) := by
  have hsnd : (NewVersion cfgPre).2 = none := by decide
  have hpair : NewVersion cfgPre = ((NewVersion cfgPre).1, none) := by rw [← hsnd]
  obtain ⟨-, hlen, hhead⟩ := warnings_count_and_order cfgPre (NewVersion cfgPre).1 hpair
  refine ⟨?_, hhead (by decide)⟩
  rw [hlen]
  decide

/-! ### C4: the release warning and the production tags -/

/-- Claim C4: a successfully constructed record contains the release
warning exactly when the release tag is neither `"production"` nor
`"prod"`, compared exactly. -/
theorem release_warning_iff_not_production (c : VersionConfig) (v : Version)
    (h : NewVersion c = (v, none)) :
    releaseWarning c.Release ∈ v.Warnings ↔
      (c.Release ≠ "production" ∧ c.Release ≠ "prod") := by
  obtain ⟨sv, ts, hsv, hts, rfl⟩ := NewVersion_ok h
  simp only [Version.Warnings]
  constructor
  · intro hm
    by_contra hcon
    rw [if_neg hcon, List.append_nil] at hm
    by_cases hp : 0 < sv.pre.length
    · rw [if_pos hp] at hm
      simp only [List.mem_singleton] at hm
      exact preReleaseWarning_ne_releaseWarning sv.pre c.Release hm.symm
    · rw [if_neg hp] at hm
      simp at hm
  · intro hcond
    rw [if_pos hcond]
    simp

/-- Witness for C4: with release tag `"test"` the release warning is
present; with `"prod"` it is absent. -/
theorem release_warning_iff_not_production_witness :
    releaseWarning "test" ∈ (NewVersion cfgPre).1.Warnings ∧
      releaseWarning "prod" ∉ (NewVersion cfgProd).1.Warnings := by
  have hsnd1 : (NewVersion cfgPre).2 = none := by decide
  have hpair1 : NewVersion cfgPre = ((NewVersion cfgPre).1, none) := by rw [← hsnd1]
  have hsnd2 : (NewVersion cfgProd).2 = none := by decide
  have hpair2 : NewVersion cfgProd = ((NewVersion cfgProd).1, none) := by rw [← hsnd2]
  constructor
  · exact (release_warning_iff_not_production cfgPre (NewVersion cfgPre).1 hpair1).mpr
      (by decide)
  · intro hm
    have := (release_warning_iff_not_production cfgProd (NewVersion cfgProd).1 hpair2).mp hm
    exact this.2 rfl

/-! ### C8: opaque fields stored verbatim, accessors pure projections -/

/-- Claim C8: on success each opaque config field is stored verbatim and
returned unchanged by the corresponding accessor. -/
theorem opaque_fields_projection (c : VersionConfig) (v : Version)
    (h : NewVersion c = (v, none)) :
    v.GitHash = c.GitHash ∧ v.GitBranch = c.GitBranch ∧ v.GitUser = c.GitUser ∧
      v.OS = c.OS ∧ v.Arch = c.Arch ∧ v.Compiler = c.Compiler ∧ v.Release = c.Release := by
  obtain ⟨sv, ts, hsv, hts, rfl⟩ := NewVersion_ok h
  exact ⟨rfl, rfl, rfl, rfl, rfl, rfl, rfl⟩

/-- Witness for C8 at a concrete configuration. -/
theorem opaque_fields_projection_witness :
    (NewVersion cfgProd).1.GitHash = "1234567890abcdef" ∧
      (NewVersion cfgProd).1.OS = "linux" ∧ (NewVersion cfgProd).1.Release = "prod" := by
  have hsnd : (NewVersion cfgProd).2 = none := by decide
  have hpair : NewVersion cfgProd = ((NewVersion cfgProd).1, none) := by rw [← hsnd]
  obtain ⟨h1, -, -, h4, -, -, h7⟩ := opaque_fields_projection cfgProd (NewVersion cfgProd).1 hpair
  exact ⟨h1, h4, h7⟩

/-! ### C10: the `uint64 → int` wrap-around of the numeric accessors -/

theorem intOfUInt64_wrap {n : Nat} (hlt : n < 2 ^ 64) (hb : 2 ^ 63 ≤ n) :
    intOfUInt64 n = (n : Int) - 2 ^ 64 ∧ intOfUInt64 n < 0 := by
  unfold intOfUInt64
  rw [if_neg (by omega)]
  refine ⟨rfl, ?_⟩
  have : (n : Int) < 2 ^ 64 := by exact_mod_cast hlt
  omega

/-- Claim C10: for every stored component at or above `2 ^ 63`, the
`Major`/`Minor`/`Patch` accessor returns the component reduced modulo
`2 ^ 64` and interpreted as a signed 64-bit value, hence a negative
number. -/
theorem accessors_wrap_above_signed_max (c : VersionConfig) (v : Version)
    (h : NewVersion c = (v, none)) :
    (2 ^ 63 ≤ v.semver.major → v.Major = (v.semver.major : Int) - 2 ^ 64 ∧ v.Major < 0) ∧
    (2 ^ 63 ≤ v.semver.minor → v.Minor = (v.semver.minor : Int) - 2 ^ 64 ∧ v.Minor < 0) ∧
    (2 ^ 63 ≤ v.semver.patch → v.Patch = (v.semver.patch : Int) - 2 ^ 64 ∧ v.Patch < 0) := by
  obtain ⟨sv, ts, hsv, hts, rfl⟩ := NewVersion_ok h
  obtain ⟨hM, hm, hp⟩ := semverMake_components_lt hsv
  exact ⟨fun hb => intOfUInt64_wrap hM hb, fun hb => intOfUInt64_wrap hm hb,
    fun hb => intOfUInt64_wrap hp hb⟩

/-- Witness for C10: a configuration whose three components all exceed
the signed 64-bit maximum yields three negative accessor values. -/
theorem accessors_wrap_above_signed_max_witness :
    (NewVersion cfgBig3).1.Major < 0 ∧ (NewVersion cfgBig3).1.Minor < 0 ∧
      (NewVersion cfgBig3).1.Patch < 0 := by
  have hsnd : (NewVersion cfgBig3).2 = none := by decide
  have hpair : NewVersion cfgBig3 = ((NewVersion cfgBig3).1, none) := by rw [← hsnd]
  obtain ⟨h1, h2, h3⟩ := accessors_wrap_above_signed_max cfgBig3 (NewVersion cfgBig3).1 hpair
  exact ⟨(h1 (by decide)).2, (h2 (by decide)).2, (h3 (by decide)).2⟩

/-! ### Decimal digit lemmas -/

theorem digitVal_digitChar : ∀ d, d < 10 → digitVal (digitChar d) = d := by decide

theorem isDigitChar_digitChar : ∀ d, d < 10 → isDigitChar (digitChar d) = true := by decide

theorem numbers_contains_digitChar : ∀ d, d < 10 → numbers.contains (digitChar d) = true := by
  decide

theorem natDigits_ne_nil (n : Nat) : natDigits n ≠ [] := by
  rw [natDigits_unfold]
  by_cases h : n < 10 <;> simp [h]

theorem mem_natDigits (n : Nat) : ∀ c ∈ natDigits n, ∃ d, d < 10 ∧ c = digitChar d := by
  induction n using Nat.strong_induction_on with
  | _ n ih =>
    rw [natDigits_unfold]
    by_cases h : n < 10
    · simp only [if_pos h, List.mem_singleton]
      rintro c rfl
      exact ⟨n, h, rfl⟩
    · simp only [if_neg h, List.mem_append, List.mem_singleton]
      rintro c (hc | rfl)
      · exact ih (n / 10) (Nat.div_lt_self (by omega) (by omega)) c hc
      · exact ⟨n % 10, Nat.mod_lt n (by omega), rfl⟩

theorem digitsVal_append_singleton (l : List Char) (c : Char) :
    digitsVal (l ++ [c]) = 10 * digitsVal l + digitVal c := by
  simp [digitsVal, List.foldl_append]

theorem digitsVal_natDigits (n : Nat) : digitsVal (natDigits n) = n := by
  induction n using Nat.strong_induction_on with
  | _ n ih =>
    rw [natDigits_unfold]
    by_cases h : n < 10
    · simp only [if_pos h, digitsVal, List.foldl_cons, List.foldl_nil]
      rw [digitVal_digitChar n h]
      omega
    · simp only [if_neg h, digitsVal_append_singleton]
      rw [ih (n / 10) (Nat.div_lt_self (by omega) (by omega)),
        digitVal_digitChar (n % 10) (Nat.mod_lt n (by omega))]
      omega

theorem natDigits_head_ne_zero (n : Nat) (hn : 1 ≤ n) : (natDigits n).head? ≠ some '0' := by
  induction n using Nat.strong_induction_on with
  | _ n ih =>
    rw [natDigits_unfold]
    by_cases h : n < 10
    · simp only [if_pos h, List.head?_cons]
      have : ∀ d, 1 ≤ d → d < 10 → digitChar d ≠ '0' := by decide
      simp [this n hn h]
    · simp only [if_neg h]
      rcases hq : natDigits (n / 10) with _ | ⟨a, as⟩
      · exact absurd hq (natDigits_ne_nil (n / 10))
      · have hd : 1 ≤ n / 10 := (Nat.one_le_div_iff (by omega)).mpr (by omega)
        have := ih (n / 10) (Nat.div_lt_self (by omega) (by omega)) hd
        rw [hq] at this
        simpa using this

theorem hasLeadingZeroes_natDigits (n : Nat) : hasLeadingZeroes (natDigits n) = false := by
  by_cases h : n < 10
  · have : natDigits n = [digitChar n] := by rw [natDigits_unfold, if_pos h]
    simp [hasLeadingZeroes, this]
  · have hne := natDigits_head_ne_zero n (by omega)
    rcases hq : natDigits n with _ | ⟨a, as⟩
    · exact absurd hq (natDigits_ne_nil n)
    · rw [hq] at hne
      simp only [List.head?_cons, ne_eq, Option.some.injEq] at hne
      simp [hasLeadingZeroes, hne]

theorem all_isDigitChar_natDigits (n : Nat) : (natDigits n).all isDigitChar = true := by
  rw [List.all_eq_true]
  intro c hc
  obtain ⟨d, hd, rfl⟩ := mem_natDigits n c hc
  exact isDigitChar_digitChar d hd

theorem containsOnly_natDigits (n : Nat) : containsOnly (natDigits n) numbers = true := by
  rw [containsOnly, List.all_eq_true]
  intro c hc
  obtain ⟨d, hd, rfl⟩ := mem_natDigits n c hc
  exact numbers_contains_digitChar d hd

theorem goParseUint_natDigits (n : Nat) (hn : n < 2 ^ 64) :
    goParseUint (natDigits n) = some n := by
  unfold goParseUint
  rw [if_neg (by simp [natDigits_ne_nil n]), if_pos (all_isDigitChar_natDigits n),
    digitsVal_natDigits, if_pos hn]

theorem parseNumericId_natDigits (n : Nat) (hn : n < 2 ^ 64) :
    parseNumericId (natDigits n) = some n := by
  unfold parseNumericId
  rw [if_pos (containsOnly_natDigits n), hasLeadingZeroes_natDigits,
    goParseUint_natDigits n hn]
  rfl

theorem not_mem_natDigits {c : Char} (hc : ∀ d, d < 10 → c ≠ digitChar d) (n : Nat) :
    c ∉ natDigits n := by
  intro hm
  obtain ⟨d, hd, he⟩ := mem_natDigits n c hm
  exact hc d hd he

theorem dot_not_mem_natDigits (n : Nat) : '.' ∉ natDigits n :=
  not_mem_natDigits (by decide) n

theorem plus_not_mem_natDigits (n : Nat) : '+' ∉ natDigits n :=
  not_mem_natDigits (by decide) n

theorem dash_not_mem_natDigits (n : Nat) : '-' ∉ natDigits n :=
  not_mem_natDigits (by decide) n

/-! ### Splitting lemmas -/

theorem breakAt_of_not_mem {c : Char} : ∀ {l : List Char}, c ∉ l → breakAt c l = none := by
  intro l
  induction l with
  | nil => intro; rfl
  | cons x xs ih =>
    intro h
    rw [List.mem_cons, not_or] at h
    rw [breakAt, if_neg (fun he => h.1 he.symm), ih h.2]
    rfl

theorem breakAt_append_cons {c : Char} {r : List Char} :
    ∀ {a : List Char}, c ∉ a → breakAt c (a ++ c :: r) = some (a, r) := by
  intro a
  induction a with
  | nil => intro; simp [breakAt]
  | cons x xs ih =>
    intro h
    rw [List.mem_cons, not_or] at h
    rw [List.cons_append, breakAt, if_neg (fun he => h.1 he.symm), ih h.2]
    rfl

theorem goSplitN_two_plus (sep : Char) (n : Nat) (l : List Char) :
    goSplitN sep (n + 2) l =
      match breakAt sep l with
      | none => [l]
      | some (p, q) => p :: goSplitN sep (n + 1) q := by
  rw [goSplitN]

theorem goSplitN_canonical {dx dy : List Char} (dz : List Char)
    (hx : '.' ∉ dx) (hy : '.' ∉ dy) :
    goSplitN '.' 3 (dx ++ '.' :: (dy ++ '.' :: dz)) = [dx, dy, dz] := by
  rw [show (3 : Nat) = 1 + 2 from rfl, goSplitN_two_plus, breakAt_append_cons hx]
  dsimp only
  rw [show (1 + 1 : Nat) = 0 + 2 from rfl, goSplitN_two_plus, breakAt_append_cons hy]
  rfl

theorem splitOffMeta_digits {dz : List Char} (h1 : '+' ∉ dz) (h2 : '-' ∉ dz) :
    splitOffMeta dz = (dz, [], []) := by
  unfold splitOffMeta
  rw [breakAt_of_not_mem h1]
  simp only
  rw [breakAt_of_not_mem h2]

/-! ### C6: the canonical `"X.Y.Z"` version strings -/

theorem canonicalVersionString_data (x y z : Nat) :
    (canonicalVersionString x y z).data =
      natDigits x ++ '.' :: (natDigits y ++ '.' :: natDigits z) := by
  simp [canonicalVersionString, natRepr, string_data_append]

/-- Parsing a canonical `"X.Y.Z"` string succeeds and yields exactly the
three components, with no pre-release and no build identifiers. -/
theorem semverMake_canonical (x y z : Nat) (hx : x < 2 ^ 64) (hy : y < 2 ^ 64)
    (hz : z < 2 ^ 64) :
    semverMake (canonicalVersionString x y z) = some ⟨x, y, z, [], []⟩ := by
  unfold semverMake
  rw [canonicalVersionString_data,
    goSplitN_canonical (natDigits z) (dot_not_mem_natDigits x) (dot_not_mem_natDigits y)]
  rw [if_neg (by simp [natDigits_ne_nil x])]
  simp only [parseNumericId_natDigits x hx, parseNumericId_natDigits y hy,
    splitOffMeta_digits (plus_not_mem_natDigits z) (dash_not_mem_natDigits z),
    parseNumericId_natDigits z hz]
  rfl

/-- Counterexample to C6 as stated: the valid canonical version string
`"9223372036854775808.0.0"` (major `2 ^ 63`) constructs successfully, but
`Major()` returns `-2 ^ 63`, not the major component. -/
theorem major_accessor_overflow :
    cfgBig.VersionString = canonicalVersionString 9223372036854775808 0 0 ∧
      (NewVersion cfgBig).2 = none ∧
      (NewVersion cfgBig).1.semver.major = 9223372036854775808 ∧
      (NewVersion cfgBig).1.Major = -9223372036854775808 ∧
      ¬(NewVersion cfgBig).1.Major = 9223372036854775808 := by decide

/-- Claim C6 as amended: for canonical version strings `"X.Y.Z"` whose
components are below `2 ^ 63` (the signed 64-bit range), construction
succeeds (given a well-formed timestamp) and the `Major`, `Minor` and
`Patch` accessors return exactly `X`, `Y` and `Z`. -/
theorem canonical_xyz_accessors (x y z : Nat) (c : VersionConfig)
    (hx : x < 2 ^ 63) (hy : y < 2 ^ 63) (hz : z < 2 ^ 63)
    (hv : c.VersionString = canonicalVersionString x y z)
    (ht : (parseUnixDate c.TStamp).isSome) :
    (NewVersion c).2 = none ∧ (NewVersion c).1.Major = x ∧
      (NewVersion c).1.Minor = y ∧ (NewVersion c).1.Patch = z := by
  obtain ⟨ts, hts⟩ := Option.isSome_iff_exists.mp ht
  have hsv : semverMake c.VersionString = some ⟨x, y, z, [], []⟩ := by
    rw [hv]
    exact semverMake_canonical x y z (by omega) (by omega) (by omega)
  refine ⟨?_, ?_, ?_, ?_⟩
  · simp only [NewVersion, hsv, hts]
  · simp only [NewVersion, hsv, hts, Version.Major, intOfUInt64]
    rw [if_pos (by omega)]
  · simp only [NewVersion, hsv, hts, Version.Minor, intOfUInt64]
    rw [if_pos (by omega)]
  · simp only [NewVersion, hsv, hts, Version.Patch, intOfUInt64]
    rw [if_pos (by omega)]

/-- Witness for the amended C6 at `"1.2.3"`. -/
theorem canonical_xyz_accessors_witness :
    (NewVersion cfgProd).2 = none ∧ (NewVersion cfgProd).1.Major = 1 ∧
      (NewVersion cfgProd).1.Minor = 2 ∧ (NewVersion cfgProd).1.Patch = 3 :=
  canonical_xyz_accessors 1 2 3 cfgProd (by decide) (by decide) (by decide)
    (by decide) (by decide)

/-! ### Fixed-width decimal fields: formatting and parsing inverses -/

theorem isDigitChar_bounds {c : Char} (h : isDigitChar c = true) :
    48 ≤ c.toNat ∧ c.toNat ≤ 57 := by
  simp only [isDigitChar, Bool.and_eq_true, decide_eq_true_eq] at h
  exact h

theorem digitVal_le_nine {c : Char} (h : isDigitChar c = true) : digitVal c ≤ 9 := by
  obtain ⟨h1, h2⟩ := isDigitChar_bounds h
  unfold digitVal
  omega

theorem natDigits_length_le : ∀ w n, 1 ≤ w → n < 10 ^ w → (natDigits n).length ≤ w := by
  intro w
  induction w with
  | zero => omega
  | succ w ih =>
    intro n _ hn
    rw [natDigits_unfold]
    by_cases h10 : n < 10
    · simp [h10]
    · have hw : 1 ≤ w := by
        by_contra hw
        have hw0 : w = 0 := by omega
        subst hw0
        norm_num at hn
        omega
      have hdiv : n / 10 < 10 ^ w := by
        rw [Nat.div_lt_iff_lt_mul (by omega)]
        calc n < 10 ^ (w + 1) := hn
        _ = 10 ^ w * 10 := by rw [pow_succ]
      rw [if_neg h10, List.length_append, List.length_singleton]
      have := ih (n / 10) hw hdiv
      omega

theorem padDigits_length (w n : Nat) (h1 : 1 ≤ w) (h : n < 10 ^ w) :
    (padDigits w n).length = w := by
  unfold padDigits
  rw [List.length_append, List.length_replicate]
  have := natDigits_length_le w n h1 h
  omega

theorem all_replicate_zero (k : Nat) : (List.replicate k '0').all isDigitChar = true := by
  rw [List.all_eq_true]
  intro c hc
  rw [List.eq_of_mem_replicate hc]
  decide

theorem padDigits_all (w n : Nat) : (padDigits w n).all isDigitChar = true := by
  unfold padDigits
  rw [List.all_append, all_replicate_zero, all_isDigitChar_natDigits]
  rfl

theorem digitsVal_replicate_zero (ds : List Char) :
    ∀ k, digitsVal (List.replicate k '0' ++ ds) = digitsVal ds := by
  intro k
  induction k with
  | zero => rfl
  | succ k ih =>
    rw [List.replicate_succ, List.cons_append]
    show digitsVal (List.replicate k '0' ++ ds) = _
    exact ih

theorem digitsVal_padDigits (w n : Nat) : digitsVal (padDigits w n) = n := by
  unfold padDigits
  rw [digitsVal_replicate_zero, digitsVal_natDigits]

theorem digitsVal_pair (c1 c2 : Char) : digitsVal [c1, c2] = 10 * digitVal c1 + digitVal c2 := by
  simp [digitsVal]

theorem getnum_fixed_two {l : List Char} (hl : l.length = 2) (hd : l.all isDigitChar = true)
    (r : List Char) : getnum true (l ++ r) = some (digitsVal l, r) := by
  rcases l with _ | ⟨c1, _ | ⟨c2, _ | ⟨c3, tl⟩⟩⟩ <;> simp at hl
  simp only [List.all_cons, List.all_nil, Bool.and_eq_true] at hd
  obtain ⟨h1, h2, -⟩ := hd
  show getnum true (c1 :: c2 :: r) = _
  rw [getnum, if_pos h1, if_pos h2, digitsVal_pair]

theorem getnum_open_two {l : List Char} (hl : l.length = 2) (hd : l.all isDigitChar = true)
    (c : Char) (r : List Char) :
    getnum false (l ++ c :: r) = some (digitsVal l, c :: r) := by
  rcases l with _ | ⟨c1, _ | ⟨c2, _ | ⟨c3, tl⟩⟩⟩ <;> simp at hl
  simp only [List.all_cons, List.all_nil, Bool.and_eq_true] at hd
  obtain ⟨h1, h2, -⟩ := hd
  show getnum false (c1 :: c2 :: (c :: r)) = _
  rw [getnum, if_pos h1, if_pos h2, digitsVal_pair]

theorem parseLongYear_four {l : List Char} (hl : l.length = 4)
    (hd : l.all isDigitChar = true) (r : List Char) :
    parseLongYear (l ++ r) = some (digitsVal l, r) := by
  rcases l with _ | ⟨a, _ | ⟨b, _ | ⟨c, _ | ⟨d, _ | ⟨e, tl⟩⟩⟩⟩⟩ <;> simp at hl
  simp only [List.all_cons, List.all_nil, Bool.and_eq_true] at hd
  obtain ⟨h1, h2, h3, h4, -⟩ := hd
  show parseLongYear (a :: b :: c :: d :: r) = _
  rw [parseLongYear, if_pos (by rw [h1, h2, h3, h4]; rfl)]

theorem getnum_fixed_pad (n : Nat) (h : n < 100) (r : List Char) :
    getnum true (padDigits 2 n ++ r) = some (n, r) := by
  have h2 : n < 10 ^ 2 := by norm_num; omega
  rw [getnum_fixed_two (padDigits_length 2 n (by omega) h2) (padDigits_all 2 n) r,
    digitsVal_padDigits]

theorem getnum_open_pad (n : Nat) (h : n < 100) (c : Char) (r : List Char) :
    getnum false (padDigits 2 n ++ c :: r) = some (n, c :: r) := by
  have h2 : n < 10 ^ 2 := by norm_num; omega
  rw [getnum_open_two (padDigits_length 2 n (by omega) h2) (padDigits_all 2 n) c r,
    digitsVal_padDigits]

theorem parseLongYear_pad (y : Nat) (h : y < 10000) (r : List Char) :
    parseLongYear (padDigits 4 y ++ r) = some (y, r) := by
  have h4 : y < 10 ^ 4 := by norm_num; omega
  rw [parseLongYear_four (padDigits_length 4 y (by omega) h4) (padDigits_all 4 y) r,
    digitsVal_padDigits]

theorem parseLongYear_le {l : List Char} {yr : Nat × List Char}
    (h : parseLongYear l = some yr) : yr.1 ≤ 9999 := by
  rcases l with _ | ⟨a, _ | ⟨b, _ | ⟨c, _ | ⟨d, tl⟩⟩⟩⟩ <;> try exact Option.noConfusion h
  rw [parseLongYear] at h
  split at h
  · case _ hd =>
    simp only [Bool.and_eq_true] at hd
    obtain ⟨⟨⟨h1, h2⟩, h3⟩, h4⟩ := hd
    injection h with h
    subst h
    have v1 := digitVal_le_nine h1
    have v2 := digitVal_le_nine h2
    have v3 := digitVal_le_nine h3
    have v4 := digitVal_le_nine h4
    show digitsVal [a, b, c, d] ≤ 9999
    simp only [digitsVal, List.foldl_cons, List.foldl_nil]
    omega
  · exact Option.noConfusion h

theorem daysIn_le_31 (m y : Nat) : daysIn m y ≤ 31 := by
  unfold daysIn
  split
  · split <;> omega
  · split <;> omega

theorem string_data_mk (l : List Char) : (String.mk l).data = l := rfl

theorem expectChar_cons (c : Char) (r : List Char) : expectChar c (c :: r) = some r := by
  simp [expectChar]

theorem offsetChars_zero : offsetChars 0 = ['Z'] := rfl

theorem parseFrac_Z : parseFrac ['Z'] = (0, ['Z']) := rfl

theorem parseISO8601TZ_Z : parseISO8601TZ ['Z'] = some (0, []) := rfl

/-! ### Inversion of `parseUnixDate` -/

/-- Inversion of a successful `parseUnixDate`: all wall-clock fields of
the stored timestamp are in range, the year has four digits, and the zone
offset is zero. -/
theorem parseUnixDate_inv {s : String} {t : DateTime} (h : parseUnixDate s = some t) :
    1 ≤ t.month ∧ t.month ≤ 12 ∧ 1 ≤ t.day ∧ t.day ≤ daysIn t.month t.year ∧
      t.hour < 24 ∧ t.minute < 60 ∧ t.second < 60 ∧ t.year ≤ 9999 ∧ t.offset = 0 := by
  unfold parseUnixDate at h
  rcases e1 : lookupAbbr shortDayNames s.data with _ | wd <;> simp only [e1] at h <;>
    try exact Option.noConfusion h
  rcases e2 : expectChar ' ' wd.2 with _ | l1 <;> simp only [e2] at h <;>
    try exact Option.noConfusion h
  rcases e3 : lookupAbbr shortMonthNames l1 with _ | mo <;> simp only [e3] at h <;>
    try exact Option.noConfusion h
  rcases e4 : expectChar ' ' mo.2 with _ | l2 <;> simp only [e4] at h <;>
    try exact Option.noConfusion h
  rcases e5 : getnum false (underDayPad l2) with _ | dy <;> simp only [e5] at h <;>
    try exact Option.noConfusion h
  rcases e6 : expectChar ' ' dy.2 with _ | l3 <;> simp only [e6] at h <;>
    try exact Option.noConfusion h
  rcases e7 : getnum false l3 with _ | hr <;> simp only [e7] at h <;>
    try exact Option.noConfusion h
  rcases e8 : expectChar ':' hr.2 with _ | l4 <;> simp only [e8] at h <;>
    try exact Option.noConfusion h
  rcases e9 : getnum true l4 with _ | mi <;> simp only [e9] at h <;>
    try exact Option.noConfusion h
  rcases e10 : expectChar ':' mi.2 with _ | l5 <;> simp only [e10] at h <;>
    try exact Option.noConfusion h
  rcases e11 : getnum true l5 with _ | se <;> simp only [e11] at h <;>
    try exact Option.noConfusion h
  rcases e12 : expectChar ' ' (parseFrac se.2).2 with _ | l6 <;> simp only [e12] at h <;>
    try exact Option.noConfusion h
  rcases e13 : parseTZ l6 with _ | l7 <;> simp only [e13] at h <;>
    try exact Option.noConfusion h
  rcases e14 : expectChar ' ' l7 with _ | l8 <;> simp only [e14] at h <;>
    try exact Option.noConfusion h
  rcases e15 : parseLongYear l8 with _ | yr <;> simp only [e15] at h <;>
    try exact Option.noConfusion h
  by_cases hemp : yr.2.isEmpty = true
  · rw [if_pos hemp] at h
    split at h
    · case _ hg =>
      injection h with h
      subst h
      obtain ⟨g1, g2, g3, g4, g5, g6, g7⟩ := hg
      exact ⟨g1, g2, g3, g4, g5, g6, g7, parseLongYear_le e15, rfl⟩
    · exact Option.noConfusion h
  · rw [if_neg hemp] at h
    exact Option.noConfusion h

/-! ### C7: the RFC 3339 round-trip -/

/-- Counterexample to C7 as stated: a Unix-date timestamp with a
fractional second (accepted by Go's `time.Parse` even though the layout
has no fractional-second field) is stored with a nonzero nanosecond
component, which the `RFC3339` rendering of `TStamp()` drops, so parsing
the rendering back does not yield the stored timestamp. -/
theorem tstamp_roundtrip_counterexample :
    (NewVersion cfgFrac).2 = none ∧
      (NewVersion cfgFrac).1.timestamp.nsec = 500000000 ∧
      (NewVersion cfgFrac).1.TStamp = "2019-02-14T15:04:05Z" ∧
      parseRFC3339 ((NewVersion cfgFrac).1.TStamp) ≠
        some ((NewVersion cfgFrac).1.timestamp) := by decide

/-- Round trip of the `RFC3339` formatting for a timestamp with in-range
wall-clock fields, a zero nanosecond component and a zero offset. -/
theorem parseRFC3339_formatRFC3339 (t : DateTime) (hmo1 : 1 ≤ t.month) (hmo2 : t.month ≤ 12)
    (hd1 : 1 ≤ t.day) (hd2 : t.day ≤ daysIn t.month t.year) (hh : t.hour < 24)
    (hmi : t.minute < 60) (hse : t.second < 60) (hy : t.year ≤ 9999)
    (hns : t.nsec = 0) (hof : t.offset = 0) :
    parseRFC3339 (formatRFC3339 t) = some t := by
  obtain ⟨y, mo, d, hr, mi, se, ns, of⟩ := t
  simp only at hmo1 hmo2 hd1 hd2 hh hmi hse hy hns hof
  subst hns hof
  rw [formatRFC3339]
  simp only [offsetChars_zero]
  unfold parseRFC3339
  rw [string_data_mk]
  simp only [List.append_assoc, List.cons_append]
  rw [parseLongYear_pad y (by omega)]
  dsimp only
  rw [expectChar_cons]
  dsimp only
  rw [getnum_fixed_pad mo (by omega)]
  dsimp only
  rw [expectChar_cons]
  dsimp only
  rw [getnum_fixed_pad d (by have := daysIn_le_31 mo y; omega)]
  dsimp only
  rw [expectChar_cons]
  dsimp only
  rw [getnum_open_pad hr (by omega)]
  dsimp only
  rw [expectChar_cons]
  dsimp only
  rw [getnum_fixed_pad mi (by omega)]
  dsimp only
  rw [expectChar_cons]
  dsimp only
  rw [getnum_fixed_pad se (by omega)]
  dsimp only
  rw [parseFrac_Z]
  dsimp only
  rw [parseISO8601TZ_Z]
  dsimp only
  simp [hmo1, hmo2, hd1, hd2, hh, hmi, hse]

/-- Claim C7 as amended: for every record produced by `NewVersion` whose
stored timestamp has a zero fractional-second component, parsing the
`TStamp()` rendering back with the RFC 3339 layout yields the stored
timestamp again. -/
theorem tstamp_roundtrip_amended (c : VersionConfig) (v : Version)
    (h : NewVersion c = (v, none)) (hn : v.timestamp.nsec = 0) :
    parseRFC3339 v.TStamp = some v.timestamp := by
  obtain ⟨sv, ts, hsv, hts, rfl⟩ := NewVersion_ok h
  obtain ⟨h1, h2, h3, h4, h5, h6, h7, h8, h9⟩ := parseUnixDate_inv hts
  exact parseRFC3339_formatRFC3339 ts h1 h2 h3 h4 h5 h6 h7 h8 hn h9

/-- Witness for the amended C7 at a concrete whole-second timestamp. -/
theorem tstamp_roundtrip_amended_witness :
    parseRFC3339 ((NewVersion cfgProd).1.TStamp) =
      some ((NewVersion cfgProd).1.timestamp) := by
  have hsnd : (NewVersion cfgProd).2 = none := by decide
  have hpair : NewVersion cfgProd = ((NewVersion cfgProd).1, none) := by rw [← hsnd]
  exact tstamp_roundtrip_amended cfgProd (NewVersion cfgProd).1 hpair (by decide)

/-! ### C5: rendering of the pre-release warning -/

/-- Counterexample to C5's general rendering clause: with two pre-release
identifiers (`"1.2.3-alpha.1"`), the code renders them space-separated
(`[alpha 1]`, Go `fmt` slice rendering), not comma-separated
(`[alpha,1]`). -/
theorem pre_warning_not_comma_separated :
    (NewVersion cfgMulti).2 = none ∧
      (NewVersion cfgMulti).1.semver.pre ≠ [] ∧
      (NewVersion cfgMulti).1.Warnings.head? = some
        "This version is tagged as a pre-release \"[alpha 1]\". Please don't use in production." ∧
      (NewVersion cfgMulti).1.Warnings.head? ≠
        some (specCommaPreWarning (NewVersion cfgMulti).1.semver.pre) := by decide

/-- The pre-release warning text, re-associated so that the brackets and
the space-separated identifier rendering are explicit. -/
theorem preReleaseWarning_eq (pre : List PRVersion) :
    preReleaseWarning pre =
      "This version is tagged as a pre-release \"" ++ "[" ++
        String.intercalate " " (pre.map prvString) ++ "]" ++
        "\". Please don't use in production." := by
  apply String.ext
  simp only [preReleaseWarning, fmtPreSlice, string_data_append, List.append_assoc]

/-- Claim C5 as amended: the concrete scenario (version
`"1.2.3-2-ga1b2c3d"`, release `"test"`) succeeds with
`Pre() = "2-ga1b2c3d"`, two warnings and the exact first warning text;
and in general, whenever the parsed version carries pre-release
identifiers, the first warning renders them bracket-enclosed and
**space**-separated (Go `fmt` slice rendering). -/
theorem pre_warning_scenario_and_rendering :
    ((NewVersion cfgPre).2 = none ∧
      (NewVersion cfgPre).1.Pre = some "2-ga1b2c3d" ∧
      (NewVersion cfgPre).1.Warnings.length = 2 ∧
      (NewVersion cfgPre).1.Warnings.head? = some
        "This version is tagged as a pre-release \"[2-ga1b2c3d]\". Please don't use in production.") ∧
    (∀ (c : VersionConfig) (v : Version), NewVersion c = (v, none) → v.semver.pre ≠ [] →
      v.Warnings.head? = some ("This version is tagged as a pre-release \"" ++ "[" ++
        String.intercalate " " (v.semver.pre.map prvString) ++ "]" ++
        "\". Please don't use in production.")) := by
  refine ⟨⟨by decide, by decide, by decide, by decide⟩, ?_⟩
  intro c v h hp
  obtain ⟨sv, ts, hsv, hts, rfl⟩ := NewVersion_ok h
  have hlen : 0 < sv.pre.length := by
    rcases hq : sv.pre with _ | ⟨a, as⟩
    · exact absurd hq hp
    · simp [hq]
  simp only [Version.Warnings, if_pos hlen, List.singleton_append, List.head?_cons,
    preReleaseWarning_eq]

/-- Witness for the general clause of the amended C5 at the concrete
pre-release configuration. -/
theorem pre_warning_scenario_and_rendering_witness :
    (NewVersion cfgPre).1.Warnings.head? =
      some ("This version is tagged as a pre-release \"" ++ "[" ++
        String.intercalate " " ((NewVersion cfgPre).1.semver.pre.map prvString) ++ "]" ++
        "\". Please don't use in production.") := by
  have hsnd : (NewVersion cfgPre).2 = none := by decide
  have hpair : NewVersion cfgPre = ((NewVersion cfgPre).1, none) := by rw [← hsnd]
  exact pre_warning_scenario_and_rendering.2 cfgPre (NewVersion cfgPre).1 hpair (by decide)

/-! ### C9: the in-record error field is never populated -/

/-- Claim C9: for every config, the record returned by `NewVersion`
(successful or not) has `Err() = nil`. -/
theorem err_accessor_always_none (c : VersionConfig) : ((NewVersion c).1).Err = none := by
  unfold NewVersion Version.Err
  split
  · rfl
  · split
    · rfl
    · rfl

end Govee
